import Mathlib

/-!
Verification of the TransitionX state-transition manager
(`src/transitionx.js`): a class holding a mutable state object, a registry
of named transition functions, and undo/redo history stacks of shallow
state snapshots.

Embedding choices:
* A JS plain object whose values matter to this library is a flat record
  of string keys; in the repository all observed values are strings, so an
  object body is `Obj := List (String × Value)` with `Value := String`
  (insertion order first-match association list; keys are unique in a JS
  object, and all operations preserve uniqueness up to first match).
* Object identity matters (the source passes the live `this.state`
  reference to transitions, stores snapshot objects in arrays, and
  reassigns `this.state` on rollback/redo), so objects live in a `Heap`
  (list of object bodies) addressed by `ObjId := Nat`. The spread
  `{ ...o }` is modelled as allocating a fresh object with the same
  top-level entries, exactly the shallow copy the source performs.
* Transition functions receive the live state reference and may mutate
  the heap; a transition either completes synchronously or returns a
  pending computation (a JS promise) whose remaining work runs later.
* The transition registry supplied to the constructor is itself a mutable
  JS object; registries live in a separate `RegStore` so that the
  defensive copy made by the constructor can be stated.
* A method that throws leaves the instance intact, so each history
  operation returns a `StepResult`: the post-call heap and instance plus
  `some err` when the call threw.
-/

abbrev Value := String

/-- Top-level body of a JS object: ordered key/value entries. -/
abbrev Obj := List (String × Value)

/-- Property write `o[k] = v`: overwrite in place if the key exists, else append. -/
def Obj.setKey : Obj → String → Value → Obj
  | [], k, v => [(k, v)]
  | (k', v') :: rest, k, v =>
      if k' = k then (k, v) :: rest else (k', v') :: Obj.setKey rest k v

/-- Property read `o[k]`. -/
def Obj.getKey : Obj → String → Option Value
  | [], _ => none
  | (k', v') :: rest, k => if k' = k then some v' else Obj.getKey rest k

/-- Reference to a heap-allocated object. -/
abbrev ObjId := Nat

/-- Store of allocated objects, addressed by `ObjId`. -/
structure Heap where
  objs : List Obj
deriving Repr, DecidableEq

/-- Dereference: body of the object at `r`. -/
def Heap.get (h : Heap) (r : ObjId) : Obj :=
  h.objs.getD r []

/-- Overwrite the body of the object at `r`. -/
def Heap.set (h : Heap) (r : ObjId) (o : Obj) : Heap :=
  ⟨h.objs.set r o⟩

/-- Allocate a fresh object with body `o`; returns the new heap and the fresh reference. -/
def Heap.alloc (h : Heap) (o : Obj) : Heap × ObjId :=
  (⟨h.objs ++ [o]⟩, h.objs.length)

/-- In-place property write through a reference: `(deref r)[k] = v`. -/
def Heap.writeKey (h : Heap) (r : ObjId) (k : String) (v : Value) : Heap :=
  h.set r ((h.get r).setKey k v)

def Heap.size (h : Heap) : Nat := h.objs.length

/-- Result of a transition function call: it either completed synchronously,
or returned a pending computation (promise) whose remaining heap effect runs
only when that computation resolves. -/
inductive TransitionResult where
  | sync : TransitionResult
  | pending (rest : Heap → Heap) : TransitionResult

/-- A registered transition function: receives the live state reference,
performs its synchronous heap mutations, and reports whether work is pending. -/
abbrev TransitionFn := ObjId → Heap → Heap × TransitionResult

/-- The three distinguished failures of the manager (the source raises each as
a JS `Error` distinguished only by its message, recorded in `errMessage`). -/
inductive TxError where
  | NoHistoryError : TxError
  | NoRedoError : TxError
  | UnknownTransitionError (name : String) : TxError
deriving Repr, DecidableEq

/-- Exact message text of each raised error, transcribed from the throw sites
in `src/transitionx.js`. -/
def errMessage : TxError → String
  | .NoHistoryError => "No saved state to rollback to."
  | .NoRedoError => "No state to redo."
  | .UnknownTransitionError name => "Transition \"" ++ name ++ "\" is not defined."

/-- Registry body: top-level entries of the transitions object. -/
abbrev Registry := List (String × TransitionFn)

/-- Lookup of an own entry of `transitions[name]` on a plain object with
unique keys (own entries shadow anything inherited). -/
def lookupTransition : Registry → String → Option TransitionFn
  | [], _ => none
  | (k, f) :: rest, name => if k = name then some f else lookupTransition rest name

/-- Property names every plain JS object inherits from `Object.prototype`.
The registry `{ ...transitions }` built by the constructor is a plain object,
so for these names the truthy check `if (context.transitions[name])` finds an
inherited truthy value (a built-in function, or for `__proto__` the accessor
returning the prototype object) even when the name was never registered. -/
def objectPrototypeProps : List String :=
  ["constructor", "hasOwnProperty", "isPrototypeOf", "propertyIsEnumerable",
   "toLocaleString", "toString", "valueOf", "__defineGetter__",
   "__defineSetter__", "__lookupGetter__", "__lookupSetter__", "__proto__"]

/-- What the property access `context.transitions[name]` yields on the
spread-created registry object: a registered (own) transition function, a
truthy value inherited from `Object.prototype`, or nothing at all (the access yields a falsy result). -/
inductive RegistryProp where
  | own (f : TransitionFn) : RegistryProp
  | inherited : RegistryProp
  | absent : RegistryProp

/-- Property access `context.transitions[name]` with full prototype-chain
semantics: an own entry shadows the prototype; otherwise the
`Object.prototype` properties are found; only then does the truthy check
fail. -/
def registryLookup (reg : Registry) (name : String) : RegistryProp :=
  match lookupTransition reg name with
  | some f => .own f
  | none => if name ∈ objectPrototypeProps then .inherited else .absent

/-- Reference to a registry object. -/
abbrev RegId := Nat

/-- Store of registry objects, so that external mutation of the registry object
passed to the constructor can be expressed. -/
structure RegStore where
  regs : List Registry

def RegStore.get (rs : RegStore) (r : RegId) : Registry :=
  rs.regs.getD r []

def RegStore.set (rs : RegStore) (r : RegId) (reg : Registry) : RegStore :=
  ⟨rs.regs.set r reg⟩

/-- The TransitionX instance: `this.state` is a reference to the live state
object; the two history stacks hold references to snapshot objects, most
recent at the head (the end of the JS array). -/
structure TransitionX where
  state : ObjId
  transitions : Registry
  debug : Bool
  stateHistory : List ObjId
  redoStack : List ObjId

/-- Constructor: `this.state = { ...initialState }` allocates a shallow copy of
the caller's object; `this.transitions = { ...transitions }` captures a copy of
the top-level entries of the caller's registry object; both stacks start empty. -/
def TransitionX.construct (h : Heap) (rs : RegStore) (initialState : ObjId)
    (transitions : RegId) (debug : Bool) : Heap × TransitionX :=
  let (h1, st) := h.alloc (h.get initialState)
  (h1, { state := st, transitions := rs.get transitions, debug := debug,
         stateHistory := [], redoStack := [] })

/-- Outcome of a history method call: post-call heap and instance, plus the
error thrown, if any (a JS method that throws leaves the instance as it was). -/
structure StepResult where
  heap : Heap
  tx : TransitionX
  err : Option TxError

/-- saveState: pushes `{ ...this.state }` (fresh shallow copy of the current
state) onto `stateHistory`, then clears `redoStack`. Never throws. -/
def saveState (h : Heap) (tx : TransitionX) : StepResult :=
  let (h1, snap) := h.alloc (h.get tx.state)
  ⟨h1, { tx with stateHistory := snap :: tx.stateHistory, redoStack := [] }, none⟩

/-- rollbackState: if `stateHistory` is nonempty, pops the most recent snapshot
reference, pushes `{ ...this.state }` (fresh copy of the current state) onto
`redoStack`, and reassigns `this.state` to `{ ...previousState }` (a fresh
copy of the popped snapshot); otherwise throws `NoHistoryError` and changes
nothing. -/
def rollbackState (h : Heap) (tx : TransitionX) : StepResult :=
  match tx.stateHistory with
  | previousState :: rest =>
      let (h1, rc) := h.alloc (h.get tx.state)
      let (h2, st) := h1.alloc (h1.get previousState)
      ⟨h2,
       { tx with
          stateHistory := rest
          redoStack := rc :: tx.redoStack
          state := st },
       none⟩
  | [] => ⟨h, tx, some .NoHistoryError⟩

/-- redoState: if `redoStack` is nonempty, pops the most recent snapshot
reference, pushes `{ ...this.state }` onto `stateHistory`, and reassigns
`this.state` to `{ ...nextState }`; otherwise throws `NoRedoError` and changes
nothing. -/
def redoState (h : Heap) (tx : TransitionX) : StepResult :=
  match tx.redoStack with
  | nextState :: rest =>
      let (h1, sc) := h.alloc (h.get tx.state)
      let (h2, st) := h1.alloc (h1.get nextState)
      ⟨h2,
       { tx with
          redoStack := rest
          stateHistory := sc :: tx.stateHistory
          state := st },
       none⟩
  | [] => ⟨h, tx, some .NoRedoError⟩

/-- Outcome of one invoker call. `ok` means a registered transition ran (its
pending part, if any, runs only after the awaited promise resolves).
`hostCall` means the truthy check found a value inherited from
`Object.prototype`: no registered transition runs, the manager raises no
error of its own, and the managed state is not mutated — the source simply
invokes the inherited host value (which returns a host value, or raises a
host TypeError when it is not callable or rejects its arguments; the host
outcome is beyond the modelled state and errors). `error` means the manager
threw the given distinguished error. -/
inductive InvokeResult where
  | ok (res : TransitionResult) : InvokeResult
  | hostCall : InvokeResult
  | error (e : TxError) : InvokeResult

/-- createTransition returns an async callable taking a transition name. A JS
async function body runs synchronously up to its first `await`; the operand of
`await context.transitions[name](context.state, ...args)` is evaluated
synchronously, so the found function is called, with the live state
reference, before the invoker returns control to its caller. The result pair
is the heap at the moment the invoker call returns, together with the
invocation outcome. The guard is the truthy check
`if (context.transitions[name])` on the spread-created plain object, which
consults the prototype chain (`registryLookup`): only a name that is neither
registered nor inherited from `Object.prototype` reaches the
`UnknownTransitionError` throw, and nothing is mutated on that path. -/
def createTransition (tx : TransitionX) : String → Heap → Heap × InvokeResult :=
  fun name h =>
    match registryLookup tx.transitions name with
    | .own f =>
        let (h1, res) := f tx.state h
        (h1, .ok res)
    | .inherited => (h, .hostCall)
    | .absent => (h, .error (.UnknownTransitionError name))

/-- Capability bundle passed by `wrap` to the wrapped procedure. The source
builds it as an object literal when the wrapped callable is invoked:
`state: context.state` captures the state reference current at that moment,
while `transition`, `saveState`, `rollbackState`, `redoState` are bound to the
live instance (modelled by applying `createTransition`, `saveState`,
`rollbackState`, `redoState` to the instance current at each call). -/
structure Bundle where
  state : ObjId

/-- The bundle handed to a wrapped procedure when the wrapped callable is
invoked with instance `tx`: its `state` field is the reference `tx.state`
held at that moment. -/
def wrapBundle (tx : TransitionX) : Bundle :=
  { state := tx.state }

/-- Current top-level content of the state object of instance `tx`. -/
def content (h : Heap) (tx : TransitionX) : Obj :=
  h.get tx.state

/-! Reachability invariant: the live state reference is allocated, and no
stored snapshot aliases it (every pushed snapshot is a fresh copy, and each
reassignment of `this.state` is a fresh copy as well). -/

def TxInv (h : Heap) (tx : TransitionX) : Prop :=
  tx.state < h.size ∧
  (∀ r ∈ tx.stateHistory, r < h.size ∧ r ≠ tx.state) ∧
  (∀ r ∈ tx.redoStack, r < h.size ∧ r ≠ tx.state)

/-! Operation sequences: explicit saves interleaved with in-place mutations of
the current state (the form every registered transition in the repository
takes: a top-level property write on the live state object). -/

inductive Op where
  | save : Op
  | mutate (k : String) (v : Value) : Op

/-- Run a sequence of save calls and state mutations on an instance. -/
def runOps : List Op → Heap → TransitionX → Heap × TransitionX
  | [], h, tx => (h, tx)
  | .save :: ops, h, tx =>
      let r := saveState h tx
      runOps ops r.heap r.tx
  | .mutate k v :: ops, h, tx => runOps ops (h.writeKey tx.state k v) tx

/-- Number of save calls in a sequence. -/
def numSaves : List Op → Nat
  | [] => 0
  | .save :: ops => numSaves ops + 1
  | .mutate _ _ :: ops => numSaves ops

/-- Specification function: the state content captured at each save of the
run, most recent save first, given the content at the start of the run. -/
def savedContents : List Op → Obj → List Obj
  | [], _ => []
  | .save :: ops, c => savedContents ops c ++ [c]
  | .mutate k v :: ops, c => savedContents ops (c.setKey k v)

/-- Iterated rollbackState: perform n rollback calls, collecting the restored
content after each one (in call order); none if some call throws. -/
def rollbackRun : Nat → Heap → TransitionX → Option (List Obj × Heap × TransitionX)
  | 0, h, tx => some ([], h, tx)
  | n + 1, h, tx =>
      let r := rollbackState h tx
      match r.err with
      | some _ => none
      | none =>
          match rollbackRun n r.heap r.tx with
          | some (cs, h', tx') => some (content r.heap r.tx :: cs, h', tx')
          | none => none

/-- Iterated rollback-then-redo pairs; none if any call throws. -/
def rollbackRedoIter : Nat → Heap → TransitionX → Option (Heap × TransitionX)
  | 0, h, tx => some (h, tx)
  | n + 1, h, tx =>
      let r1 := rollbackState h tx
      match r1.err with
      | some _ => none
      | none =>
          let r2 := redoState r1.heap r1.tx
          match r2.err with
          | some _ => none
          | none => rollbackRedoIter n r2.heap r2.tx

/-- The synchronous `eat` transition of the repository's tests and README:
sets `hunger` to "satisfied" on the live state object it receives. -/
def eatTransition : TransitionFn :=
  fun r h => (h.writeKey r "hunger" "satisfied", .sync)


/-! Basic heap lemmas. -/

theorem Heap.size_set (h : Heap) (r : ObjId) (o : Obj) : (h.set r o).size = h.size := by
  simp [Heap.set, Heap.size]

theorem Heap.size_alloc (h : Heap) (o : Obj) : (h.alloc o).1.size = h.size + 1 := by
  simp [Heap.alloc, Heap.size]

theorem Heap.alloc_ref (h : Heap) (o : Obj) : (h.alloc o).2 = h.size := rfl

theorem Heap.get_set_self (h : Heap) (r : ObjId) (o : Obj) (hr : r < h.size) :
    (h.set r o).get r = o := by
  simp [Heap.set, Heap.get, Heap.size] at *
  rw [List.getElem?_set_self hr]
  rfl

theorem Heap.get_set_ne (h : Heap) (r r' : ObjId) (o : Obj) (hne : r' ≠ r) :
    (h.set r o).get r' = h.get r' := by
  simp [Heap.set, Heap.get]
  rw [List.getElem?_set_ne (fun e => hne e.symm)]

theorem Heap.get_alloc_old (h : Heap) (o : Obj) (r : ObjId) (hr : r < h.size) :
    (h.alloc o).1.get r = h.get r := by
  simp [Heap.alloc, Heap.get]
  rw [List.getElem?_append_left hr]

theorem Heap.get_alloc_new (h : Heap) (o : Obj) :
    (h.alloc o).1.get (h.alloc o).2 = o := by
  simp [Heap.alloc, Heap.get]

theorem Heap.size_writeKey (h : Heap) (r : ObjId) (k : String) (v : Value) :
    (h.writeKey r k v).size = h.size := by
  simp [Heap.writeKey, Heap.size_set]

theorem Heap.get_writeKey_ne (h : Heap) (r r' : ObjId) (k : String) (v : Value)
    (hne : r' ≠ r) : (h.writeKey r k v).get r' = h.get r' := by
  simp [Heap.writeKey, Heap.get_set_ne _ _ _ _ hne]

theorem Heap.get_writeKey_self (h : Heap) (r : ObjId) (k : String) (v : Value)
    (hr : r < h.size) : (h.writeKey r k v).get r = (h.get r).setKey k v := by
  simp [Heap.writeKey, Heap.get_set_self _ _ _ hr]


/-! Step-description lemmas: the observable effect of each method call,
phrased component by component. -/

theorem saveState_err (h : Heap) (tx : TransitionX) : (saveState h tx).err = none := rfl

theorem saveState_heap (h : Heap) (tx : TransitionX) :
    (saveState h tx).heap = (h.alloc (h.get tx.state)).1 := rfl

theorem saveState_heap_size (h : Heap) (tx : TransitionX) :
    (saveState h tx).heap.size = h.size + 1 := Heap.size_alloc h _

theorem saveState_state (h : Heap) (tx : TransitionX) :
    (saveState h tx).tx.state = tx.state := rfl

theorem saveState_stateHistory (h : Heap) (tx : TransitionX) :
    (saveState h tx).tx.stateHistory = h.size :: tx.stateHistory := rfl

theorem saveState_redoStack (h : Heap) (tx : TransitionX) :
    (saveState h tx).tx.redoStack = [] := rfl

theorem saveState_transitions (h : Heap) (tx : TransitionX) :
    (saveState h tx).tx.transitions = tx.transitions := rfl

theorem saveState_get_old (h : Heap) (tx : TransitionX) (r : ObjId) (hr : r < h.size) :
    (saveState h tx).heap.get r = h.get r := Heap.get_alloc_old h _ r hr

theorem saveState_get_snap (h : Heap) (tx : TransitionX) :
    (saveState h tx).heap.get h.size = h.get tx.state := Heap.get_alloc_new h _

theorem saveState_content (h : Heap) (tx : TransitionX) (hst : tx.state < h.size) :
    content (saveState h tx).heap (saveState h tx).tx = content h tx := by
  simp [content, saveState_state, saveState_heap]
  exact Heap.get_alloc_old h _ _ hst

theorem rollbackState_nil (h : Heap) (tx : TransitionX) (hh : tx.stateHistory = []) :
    rollbackState h tx = ⟨h, tx, some .NoHistoryError⟩ := by
  simp only [rollbackState, hh]

theorem rollbackState_err (h : Heap) (tx : TransitionX) (p : ObjId) (rest : List ObjId)
    (hh : tx.stateHistory = p :: rest) : (rollbackState h tx).err = none := by
  simp only [rollbackState, hh]

theorem rollbackState_state (h : Heap) (tx : TransitionX) (p : ObjId) (rest : List ObjId)
    (hh : tx.stateHistory = p :: rest) : (rollbackState h tx).tx.state = h.size + 1 := by
  simp [rollbackState, hh, Heap.alloc, Heap.size]

theorem rollbackState_stateHistory (h : Heap) (tx : TransitionX) (p : ObjId)
    (rest : List ObjId) (hh : tx.stateHistory = p :: rest) :
    (rollbackState h tx).tx.stateHistory = rest := by
  simp only [rollbackState, hh]

theorem rollbackState_redoStack (h : Heap) (tx : TransitionX) (p : ObjId)
    (rest : List ObjId) (hh : tx.stateHistory = p :: rest) :
    (rollbackState h tx).tx.redoStack = h.size :: tx.redoStack := by
  simp only [rollbackState, hh]
  rfl

theorem rollbackState_transitions (h : Heap) (tx : TransitionX) :
    (rollbackState h tx).tx.transitions = tx.transitions := by
  match hh : tx.stateHistory with
  | [] => simp only [rollbackState, hh]
  | p :: rest => simp only [rollbackState, hh]

theorem rollbackState_heap_size (h : Heap) (tx : TransitionX) (p : ObjId)
    (rest : List ObjId) (hh : tx.stateHistory = p :: rest) :
    (rollbackState h tx).heap.size = h.size + 2 := by
  simp [rollbackState, hh, Heap.alloc, Heap.size]

theorem rollbackState_get_old (h : Heap) (tx : TransitionX) (p : ObjId)
    (rest : List ObjId) (hh : tx.stateHistory = p :: rest) (r : ObjId)
    (hr : r < h.size) : (rollbackState h tx).heap.get r = h.get r := by
  simp only [rollbackState, hh]
  have hb : r < (h.alloc (h.get tx.state)).1.size := by
    rw [Heap.size_alloc]
    exact Nat.lt_succ_of_lt hr
  rw [Heap.get_alloc_old _ _ r hb, Heap.get_alloc_old _ _ r hr]

theorem rollbackState_get_redo_snap (h : Heap) (tx : TransitionX) (p : ObjId)
    (rest : List ObjId) (hh : tx.stateHistory = p :: rest) :
    (rollbackState h tx).heap.get h.size = h.get tx.state := by
  simp only [rollbackState, hh]
  have hb : h.size < (h.alloc (h.get tx.state)).1.size := by
    rw [Heap.size_alloc]
    omega
  have hu : ((h.alloc (h.get tx.state)).1.alloc
      ((h.alloc (h.get tx.state)).1.get p)).1.get h.size
      = (h.alloc (h.get tx.state)).1.get h.size :=
    Heap.get_alloc_old _ _ _ hb
  rw [hu]
  exact Heap.get_alloc_new h _

theorem rollbackState_content (h : Heap) (tx : TransitionX) (p : ObjId)
    (rest : List ObjId) (hh : tx.stateHistory = p :: rest) (hp : p < h.size) :
    content (rollbackState h tx).heap (rollbackState h tx).tx = h.get p := by
  rw [content, rollbackState_state h tx p rest hh]
  simp only [rollbackState, hh]
  have h1 : (h.alloc (h.get tx.state)).1.get p = h.get p :=
    Heap.get_alloc_old _ _ _ hp
  have hsz : h.size + 1 = (h.alloc (h.get tx.state)).1.size := by
    rw [Heap.size_alloc]
  rw [hsz, h1]
  exact Heap.get_alloc_new _ _

theorem redoState_nil (h : Heap) (tx : TransitionX) (hh : tx.redoStack = []) :
    redoState h tx = ⟨h, tx, some .NoRedoError⟩ := by
  simp only [redoState, hh]

theorem redoState_err (h : Heap) (tx : TransitionX) (p : ObjId) (rest : List ObjId)
    (hh : tx.redoStack = p :: rest) : (redoState h tx).err = none := by
  simp only [redoState, hh]

theorem redoState_state (h : Heap) (tx : TransitionX) (p : ObjId) (rest : List ObjId)
    (hh : tx.redoStack = p :: rest) : (redoState h tx).tx.state = h.size + 1 := by
  simp [redoState, hh, Heap.alloc, Heap.size]

theorem redoState_redoStack (h : Heap) (tx : TransitionX) (p : ObjId)
    (rest : List ObjId) (hh : tx.redoStack = p :: rest) :
    (redoState h tx).tx.redoStack = rest := by
  simp only [redoState, hh]

theorem redoState_stateHistory (h : Heap) (tx : TransitionX) (p : ObjId)
    (rest : List ObjId) (hh : tx.redoStack = p :: rest) :
    (redoState h tx).tx.stateHistory = h.size :: tx.stateHistory := by
  simp only [redoState, hh]
  rfl

theorem redoState_transitions (h : Heap) (tx : TransitionX) :
    (redoState h tx).tx.transitions = tx.transitions := by
  match hh : tx.redoStack with
  | [] => simp only [redoState, hh]
  | p :: rest => simp only [redoState, hh]

theorem redoState_heap_size (h : Heap) (tx : TransitionX) (p : ObjId)
    (rest : List ObjId) (hh : tx.redoStack = p :: rest) :
    (redoState h tx).heap.size = h.size + 2 := by
  simp [redoState, hh, Heap.alloc, Heap.size]

theorem redoState_get_old (h : Heap) (tx : TransitionX) (p : ObjId)
    (rest : List ObjId) (hh : tx.redoStack = p :: rest) (r : ObjId)
    (hr : r < h.size) : (redoState h tx).heap.get r = h.get r := by
  simp only [redoState, hh]
  have hb : r < (h.alloc (h.get tx.state)).1.size := by
    rw [Heap.size_alloc]
    exact Nat.lt_succ_of_lt hr
  rw [Heap.get_alloc_old _ _ r hb, Heap.get_alloc_old _ _ r hr]

theorem redoState_get_undo_snap (h : Heap) (tx : TransitionX) (p : ObjId)
    (rest : List ObjId) (hh : tx.redoStack = p :: rest) :
    (redoState h tx).heap.get h.size = h.get tx.state := by
  simp only [redoState, hh]
  have hb : h.size < (h.alloc (h.get tx.state)).1.size := by
    rw [Heap.size_alloc]
    exact Nat.lt_succ_self _
  have hu : ((h.alloc (h.get tx.state)).1.alloc
      ((h.alloc (h.get tx.state)).1.get p)).1.get h.size
      = (h.alloc (h.get tx.state)).1.get h.size :=
    Heap.get_alloc_old _ _ _ hb
  rw [hu]
  exact Heap.get_alloc_new h _

theorem redoState_content (h : Heap) (tx : TransitionX) (p : ObjId)
    (rest : List ObjId) (hh : tx.redoStack = p :: rest) (hp : p < h.size) :
    content (redoState h tx).heap (redoState h tx).tx = h.get p := by
  rw [content, redoState_state h tx p rest hh]
  simp only [redoState, hh]
  have h1 : (h.alloc (h.get tx.state)).1.get p = h.get p :=
    Heap.get_alloc_old _ _ _ hp
  have hsz : h.size + 1 = (h.alloc (h.get tx.state)).1.size := by
    rw [Heap.size_alloc]
  rw [hsz, h1]
  exact Heap.get_alloc_new _ _

theorem inv_construct (h : Heap) (rs : RegStore) (i : ObjId) (t : RegId) (d : Bool) :
    TxInv (TransitionX.construct h rs i t d).1 (TransitionX.construct h rs i t d).2 := by
  refine ⟨?_, ?_, ?_⟩
  · have h1 : (TransitionX.construct h rs i t d).1.size = h.size + 1 := Heap.size_alloc h _
    have h2 : (TransitionX.construct h rs i t d).2.state = h.size := rfl
    rw [h2, h1]
    exact Nat.lt_succ_self _
  · intro r hr
    have he : (TransitionX.construct h rs i t d).2.stateHistory = [] := rfl
    rw [he] at hr
    exact absurd hr (List.not_mem_nil r)
  · intro r hr
    have he : (TransitionX.construct h rs i t d).2.redoStack = [] := rfl
    rw [he] at hr
    exact absurd hr (List.not_mem_nil r)

theorem inv_saveState (h : Heap) (tx : TransitionX) (hinv : TxInv h tx) :
    TxInv (saveState h tx).heap (saveState h tx).tx := by
  obtain ⟨hst, hh, _⟩ := hinv
  have hsz : (saveState h tx).heap.size = h.size + 1 := saveState_heap_size h tx
  refine ⟨?_, ?_, ?_⟩
  · rw [saveState_state, hsz]
    exact Nat.lt_succ_of_lt hst
  · intro r hr
    rw [saveState_stateHistory] at hr
    rw [saveState_state, hsz]
    rcases List.mem_cons.mp hr with he | hm
    · subst he
      exact ⟨Nat.lt_succ_self _, Nat.ne_of_gt hst⟩
    · rcases hh r hm with ⟨hlt, hne⟩
      exact ⟨Nat.lt_succ_of_lt hlt, hne⟩
  · intro r hr
    rw [saveState_redoStack] at hr
    exact absurd hr (List.not_mem_nil r)

theorem inv_rollbackState (h : Heap) (tx : TransitionX) (hinv : TxInv h tx) :
    TxInv (rollbackState h tx).heap (rollbackState h tx).tx := by
  obtain ⟨hst, hh, hr⟩ := hinv
  match hhist : tx.stateHistory with
  | [] =>
      rw [rollbackState_nil h tx hhist]
      exact ⟨hst, hh, hr⟩
  | p :: rest =>
      have hsz : (rollbackState h tx).heap.size = h.size + 2 :=
        rollbackState_heap_size h tx p rest hhist
      have hstate : (rollbackState h tx).tx.state = h.size + 1 :=
        rollbackState_state h tx p rest hhist
      refine ⟨?_, ?_, ?_⟩
      · rw [hstate, hsz]
        exact Nat.lt_succ_self _
      · intro r hrm
        rw [rollbackState_stateHistory h tx p rest hhist] at hrm
        rw [hstate, hsz]
        have hm : r ∈ tx.stateHistory := by
          rw [hhist]
          exact List.mem_cons_of_mem p hrm
        rcases hh r hm with ⟨hlt, _⟩
        refine ⟨Nat.lt_succ_of_lt (Nat.lt_succ_of_lt hlt), Nat.ne_of_lt ?_⟩
        exact Nat.lt_succ_of_lt hlt
      · intro r hrm
        rw [rollbackState_redoStack h tx p rest hhist] at hrm
        rw [hstate, hsz]
        rcases List.mem_cons.mp hrm with he | hm
        · subst he
          exact ⟨Nat.lt_succ_of_lt (Nat.lt_succ_self _), Nat.ne_of_lt (Nat.lt_succ_self _)⟩
        · rcases hr r hm with ⟨hlt, _⟩
          refine ⟨Nat.lt_succ_of_lt (Nat.lt_succ_of_lt hlt), Nat.ne_of_lt ?_⟩
          exact Nat.lt_succ_of_lt hlt

theorem inv_redoState (h : Heap) (tx : TransitionX) (hinv : TxInv h tx) :
    TxInv (redoState h tx).heap (redoState h tx).tx := by
  obtain ⟨hst, hh, hr⟩ := hinv
  match hred : tx.redoStack with
  | [] =>
      rw [redoState_nil h tx hred]
      exact ⟨hst, hh, hr⟩
  | p :: rest =>
      have hsz : (redoState h tx).heap.size = h.size + 2 :=
        redoState_heap_size h tx p rest hred
      have hstate : (redoState h tx).tx.state = h.size + 1 :=
        redoState_state h tx p rest hred
      refine ⟨?_, ?_, ?_⟩
      · rw [hstate, hsz]
        exact Nat.lt_succ_self _
      · intro r hrm
        rw [redoState_stateHistory h tx p rest hred] at hrm
        rw [hstate, hsz]
        rcases List.mem_cons.mp hrm with he | hm
        · subst he
          exact ⟨Nat.lt_succ_of_lt (Nat.lt_succ_self _), Nat.ne_of_lt (Nat.lt_succ_self _)⟩
        · rcases hh r hm with ⟨hlt, _⟩
          refine ⟨Nat.lt_succ_of_lt (Nat.lt_succ_of_lt hlt), Nat.ne_of_lt ?_⟩
          exact Nat.lt_succ_of_lt hlt
      · intro r hrm
        rw [redoState_redoStack h tx p rest hred] at hrm
        have hm : r ∈ tx.redoStack := by
          rw [hred]
          exact List.mem_cons_of_mem p hrm
        rcases hr r hm with ⟨hlt, _⟩
        rw [hstate, hsz]
        refine ⟨Nat.lt_succ_of_lt (Nat.lt_succ_of_lt hlt), Nat.ne_of_lt ?_⟩
        exact Nat.lt_succ_of_lt hlt

theorem inv_writeKey (h : Heap) (tx : TransitionX) (k : String) (v : Value)
    (hinv : TxInv h tx) : TxInv (h.writeKey tx.state k v) tx := by
  obtain ⟨hst, hh, hr⟩ := hinv
  have hsz : (h.writeKey tx.state k v).size = h.size := Heap.size_writeKey h _ k v
  refine ⟨?_, ?_, ?_⟩
  · rw [hsz]
    exact hst
  · intro r hrm
    rw [hsz]
    exact hh r hrm
  · intro r hrm
    rw [hsz]
    exact hr r hrm

theorem length_savedContents (ops : List Op) (c : Obj) :
    (savedContents ops c).length = numSaves ops := by
  induction ops generalizing c with
  | nil => rfl
  | cons op ops ih =>
      cases op with
      | save => simp [savedContents, numSaves, ih]
      | mutate k v => simp [savedContents, numSaves, ih]

/-- Effect of a save/mutate run: the state reference is untouched, the heap
only grows, objects other than the live state keep their content, and the
undo stack gains exactly the references of the snapshots taken at each save,
whose contents are `savedContents`, none of them aliasing the live state. -/
theorem runOps_spec (ops : List Op) (h : Heap) (tx : TransitionX)
    (hwf : tx.state < h.size) :
    (runOps ops h tx).2.state = tx.state ∧
    h.size ≤ (runOps ops h tx).1.size ∧
    (∀ i, i < h.size → i ≠ tx.state → (runOps ops h tx).1.get i = h.get i) ∧
    ∃ ids : List ObjId,
      (runOps ops h tx).2.stateHistory = ids ++ tx.stateHistory ∧
      ids.map (runOps ops h tx).1.get = savedContents ops (h.get tx.state) ∧
      ∀ id ∈ ids, id < (runOps ops h tx).1.size ∧ id ≠ tx.state := by
  induction ops generalizing h tx with
  | nil =>
      refine ⟨rfl, Nat.le_refl _, fun i _ _ => rfl, [], rfl, rfl, ?_⟩
      intro id hid
      exact absurd hid (List.not_mem_nil id)
  | cons op ops ih =>
      cases op with
      | save =>
          have hrun : runOps (.save :: ops) h tx
              = runOps ops (saveState h tx).heap (saveState h tx).tx := rfl
          have hwf1 : (saveState h tx).tx.state < (saveState h tx).heap.size := by
            rw [saveState_state, saveState_heap_size]
            exact Nat.lt_succ_of_lt hwf
          obtain ⟨ihst, ihsz, ihfr, ids, ihhist, ihcont, ihid⟩ :=
            ih (saveState h tx).heap (saveState h tx).tx hwf1
          rw [hrun]
          have hsz1 : (saveState h tx).heap.size = h.size + 1 := saveState_heap_size h tx
          rw [hsz1] at ihsz
          rw [saveState_state] at ihfr ihid
          have hne0 : h.size ≠ tx.state := Nat.ne_of_gt hwf
          refine ⟨by rw [ihst, saveState_state], Nat.le_of_succ_le ihsz, ?_,
            ids ++ [h.size], ?_, ?_, ?_⟩
          · intro i hi hine
            have hi1 : i < (saveState h tx).heap.size := by
              rw [hsz1]
              exact Nat.lt_succ_of_lt hi
            rw [ihfr i hi1 hine]
            exact saveState_get_old h tx i hi
          · rw [ihhist, saveState_stateHistory, List.append_assoc]
            rfl
          · rw [List.map_append, ihcont]
            have hi1 : h.size < (saveState h tx).heap.size := by
              rw [hsz1]
              exact Nat.lt_succ_self _
            have hget : (runOps ops (saveState h tx).heap (saveState h tx).tx).1.get h.size
                = h.get tx.state := by
              rw [ihfr h.size hi1 hne0]
              exact saveState_get_snap h tx
            have hc : (saveState h tx).heap.get (saveState h tx).tx.state = h.get tx.state := by
              rw [saveState_state]
              exact saveState_get_old h tx tx.state hwf
            rw [hc]
            simp [savedContents, hget]
          · intro id hid
            rcases List.mem_append.mp hid with hmem | hmem
            · exact ihid id hmem
            · rcases List.mem_singleton.mp hmem with rfl
              exact ⟨Nat.lt_of_succ_le ihsz, hne0⟩
      | mutate k v =>
          have hrun : runOps (.mutate k v :: ops) h tx
              = runOps ops (h.writeKey tx.state k v) tx := rfl
          have hwf1 : tx.state < (h.writeKey tx.state k v).size := by
            rw [Heap.size_writeKey]
            exact hwf
          obtain ⟨ihst, ihsz, ihfr, ids, ihhist, ihcont, ihid⟩ :=
            ih (h.writeKey tx.state k v) tx hwf1
          rw [hrun]
          have hsz1 : (h.writeKey tx.state k v).size = h.size := Heap.size_writeKey h _ k v
          rw [hsz1] at ihsz ihfr
          refine ⟨ihst, ihsz, ?_, ids, ihhist, ?_, ?_⟩
          · intro i hi hine
            rw [ihfr i hi hine]
            exact Heap.get_writeKey_ne h tx.state i k v hine
          · rw [ihcont]
            have hc : (h.writeKey tx.state k v).get tx.state = (h.get tx.state).setKey k v :=
              Heap.get_writeKey_self h tx.state k v hwf
            rw [hc]
            rfl
          · exact ihid

/-- Rolling back once per remembered snapshot: when the undo stack starts with
references `ids` (all allocated), the next `ids.length` rollback calls all
succeed, restore exactly the contents of those snapshots in order, and leave
the remainder of the undo stack in place. -/
theorem rollbackRun_spec (ids : List ObjId) (h : Heap) (tx : TransitionX)
    (rest : List ObjId) (hhist : tx.stateHistory = ids ++ rest)
    (hids : ∀ id ∈ ids, id < h.size) :
    ∃ h' tx', rollbackRun ids.length h tx = some (ids.map h.get, h', tx') ∧
      tx'.stateHistory = rest := by
  induction ids generalizing h tx with
  | nil => exact ⟨h, tx, rfl, by simpa using hhist⟩
  | cons p ids ih =>
      have hh : tx.stateHistory = p :: (ids ++ rest) := by simpa using hhist
      have hp : p < h.size := hids p (List.mem_cons_self p ids)
      have herr : (rollbackState h tx).err = none := rollbackState_err h tx p _ hh
      have hhist1 : (rollbackState h tx).tx.stateHistory = ids ++ rest :=
        rollbackState_stateHistory h tx p _ hh
      have hsz : (rollbackState h tx).heap.size = h.size + 2 :=
        rollbackState_heap_size h tx p _ hh
      have hids1 : ∀ id ∈ ids, id < (rollbackState h tx).heap.size := by
        intro id hid
        rw [hsz]
        exact Nat.lt_succ_of_lt (Nat.lt_succ_of_lt (hids id (List.mem_cons_of_mem p hid)))
      obtain ⟨h', tx', heq, hrest⟩ :=
        ih (rollbackState h tx).heap (rollbackState h tx).tx hhist1 hids1
      refine ⟨h', tx', ?_, hrest⟩
      have hmap : ids.map (rollbackState h tx).heap.get = ids.map h.get := by
        apply List.map_congr_left
        intro id hid
        exact rollbackState_get_old h tx p _ hh id (hids id (List.mem_cons_of_mem p hid))
      have hcont : content (rollbackState h tx).heap (rollbackState h tx).tx = h.get p :=
        rollbackState_content h tx p _ hh hp
      show rollbackRun (ids.length + 1) h tx = some ((p :: ids).map h.get, h', tx')
      simp only [rollbackRun, herr, heq, List.map_cons]
      rw [hcont, hmap]

/-- C1: for every instance and every sequence of save calls interleaved with
in-place state mutations, calling rollback exactly as many times as there are
preceding unmatched save calls succeeds every time and restores, at each
rollback, the exact top-level state content that was current at the matching
save, in LIFO order (most recent save first); afterwards the undo stack is
back to what it was before the sequence. -/
theorem c1_rollback_restores_saves_lifo (ops : List Op) (h : Heap)
    (tx : TransitionX) (hwf : tx.state < h.size) :
    ∃ h' tx',
      rollbackRun (numSaves ops) (runOps ops h tx).1 (runOps ops h tx).2
        = some (savedContents ops (content h tx), h', tx') ∧
      tx'.stateHistory = tx.stateHistory := by
  obtain ⟨hst, hsz, hfr, ids, hhist, hcont, hid⟩ := runOps_spec ops h tx hwf
  have hlen : ids.length = numSaves ops := by
    rw [← length_savedContents ops (h.get tx.state), ← hcont, List.length_map]
  obtain ⟨h', tx', heq, hrest⟩ :=
    rollbackRun_spec ids (runOps ops h tx).1 (runOps ops h tx).2 tx.stateHistory
      hhist (fun id hid2 => (hid id hid2).1)
  refine ⟨h', tx', ?_, hrest⟩
  rw [← hlen, heq, hcont]
  rfl

/-- Witness for C1 at a concrete instance: state `{x: "0"}`, operations
save; x:="1"; save; x:="2", then two rollbacks restoring `{x: "1"}` and then
`{x: "0"}`. -/
theorem c1_witness :
    (0 : ObjId) < Heap.size ⟨[[("x", "0")]]⟩ ∧
    ∃ h' tx',
      rollbackRun
          (numSaves [Op.save, Op.mutate "x" "1", Op.save, Op.mutate "x" "2"])
          (runOps [Op.save, Op.mutate "x" "1", Op.save, Op.mutate "x" "2"]
            ⟨[[("x", "0")]]⟩ ⟨0, [], false, [], []⟩).1
          (runOps [Op.save, Op.mutate "x" "1", Op.save, Op.mutate "x" "2"]
            ⟨[[("x", "0")]]⟩ ⟨0, [], false, [], []⟩).2
        = some (savedContents [Op.save, Op.mutate "x" "1", Op.save, Op.mutate "x" "2"]
            (content ⟨[[("x", "0")]]⟩ ⟨0, [], false, [], []⟩), h', tx') ∧
      tx'.stateHistory = TransitionX.stateHistory ⟨0, [], false, [], []⟩ :=
  ⟨by decide,
   c1_rollback_restores_saves_lifo
     [Op.save, Op.mutate "x" "1", Op.save, Op.mutate "x" "2"]
     ⟨[[("x", "0")]]⟩ ⟨0, [], false, [], []⟩ (by decide)⟩

/-- One rollback/redo pair on a nonempty undo stack: both calls succeed and
every observable (current content, and the contents of both stacks) is
restored; the invariant and the nonemptiness of the undo stack survive. -/
theorem rollbackRedo_pair_spec (h : Heap) (tx : TransitionX) (hinv : TxInv h tx)
    (p : ObjId) (rest : List ObjId) (hh : tx.stateHistory = p :: rest) :
    (rollbackState h tx).err = none ∧
    (redoState (rollbackState h tx).heap (rollbackState h tx).tx).err = none ∧
    TxInv (redoState (rollbackState h tx).heap (rollbackState h tx).tx).heap
      (redoState (rollbackState h tx).heap (rollbackState h tx).tx).tx ∧
    content (redoState (rollbackState h tx).heap (rollbackState h tx).tx).heap
      (redoState (rollbackState h tx).heap (rollbackState h tx).tx).tx = content h tx ∧
    (redoState (rollbackState h tx).heap (rollbackState h tx).tx).tx.stateHistory.map
      (redoState (rollbackState h tx).heap (rollbackState h tx).tx).heap.get
      = tx.stateHistory.map h.get ∧
    (redoState (rollbackState h tx).heap (rollbackState h tx).tx).tx.redoStack.map
      (redoState (rollbackState h tx).heap (rollbackState h tx).tx).heap.get
      = tx.redoStack.map h.get ∧
    (redoState (rollbackState h tx).heap (rollbackState h tx).tx).tx.stateHistory ≠ [] := by
  obtain ⟨hst, hhi, hri⟩ := hinv
  have hp : p < h.size := by
    have := hhi p (by rw [hh]; exact List.mem_cons_self p rest)
    exact this.1
  have hsz1 : (rollbackState h tx).heap.size = h.size + 2 :=
    rollbackState_heap_size h tx p rest hh
  have hh2 : (rollbackState h tx).tx.redoStack = h.size :: tx.redoStack :=
    rollbackState_redoStack h tx p rest hh
  have herr1 : (rollbackState h tx).err = none := rollbackState_err h tx p rest hh
  have herr2 : (redoState (rollbackState h tx).heap (rollbackState h tx).tx).err = none :=
    redoState_err _ _ _ _ hh2
  have hinv1 : TxInv (rollbackState h tx).heap (rollbackState h tx).tx :=
    inv_rollbackState h tx ⟨hst, hhi, hri⟩
  have hinv2 : TxInv (redoState (rollbackState h tx).heap (rollbackState h tx).tx).heap
      (redoState (rollbackState h tx).heap (rollbackState h tx).tx).tx :=
    inv_redoState _ _ hinv1
  have hszlt : h.size < (rollbackState h tx).heap.size := by
    rw [hsz1]
    exact Nat.lt_succ_of_lt (Nat.lt_succ_self _)
  have hcont : content (redoState (rollbackState h tx).heap (rollbackState h tx).tx).heap
      (redoState (rollbackState h tx).heap (rollbackState h tx).tx).tx = content h tx := by
    rw [redoState_content _ _ _ _ hh2 hszlt]
    exact rollbackState_get_redo_snap h tx p rest hh
  have hold2 : ∀ r : ObjId, r < h.size →
      (redoState (rollbackState h tx).heap (rollbackState h tx).tx).heap.get r = h.get r := by
    intro r hr
    have hr2 : r < (rollbackState h tx).heap.size := by
      rw [hsz1]
      exact Nat.lt_succ_of_lt (Nat.lt_succ_of_lt hr)
    rw [redoState_get_old _ _ _ _ hh2 r hr2]
    exact rollbackState_get_old h tx p rest hh r hr
  refine ⟨herr1, herr2, hinv2, hcont, ?_, ?_, ?_⟩
  · rw [redoState_stateHistory _ _ _ _ hh2,
      rollbackState_stateHistory h tx p rest hh, hh]
    simp only [List.map_cons]
    have hhead : (redoState (rollbackState h tx).heap (rollbackState h tx).tx).heap.get
        (rollbackState h tx).heap.size = h.get p := by
      rw [redoState_get_undo_snap _ _ _ _ hh2]
      exact rollbackState_content h tx p rest hh hp
    have htail : List.map (redoState (rollbackState h tx).heap (rollbackState h tx).tx).heap.get
        rest = List.map h.get rest := by
      apply List.map_congr_left
      intro id hid
      have hidlt : id < h.size := by
        have := hhi id (by rw [hh]; exact List.mem_cons_of_mem p hid)
        exact this.1
      exact hold2 id hidlt
    rw [hhead, htail]
  · rw [redoState_redoStack _ _ _ _ hh2]
    apply List.map_congr_left
    intro id hid
    exact hold2 id (hri id hid).1
  · rw [redoState_stateHistory _ _ _ _ hh2]
    exact List.cons_ne_nil _ _

theorem rollbackRedoIter_spec (n : Nat) (h : Heap) (tx : TransitionX)
    (hinv : TxInv h tx) (hne : tx.stateHistory ≠ []) :
    ∃ h' tx', rollbackRedoIter n h tx = some (h', tx') ∧
      content h' tx' = content h tx := by
  induction n generalizing h tx with
  | zero => exact ⟨h, tx, rfl, rfl⟩
  | succ n ih =>
      obtain ⟨p, rest, hh⟩ := List.exists_cons_of_ne_nil hne
      obtain ⟨e1, e2, hinv2, hcont, _, _, hne2⟩ := rollbackRedo_pair_spec h tx hinv p rest hh
      obtain ⟨h', tx', heq, hc⟩ := ih _ _ hinv2 hne2
      refine ⟨h', tx', ?_, by rw [hc, hcont]⟩
      simp only [rollbackRedoIter, e1, e2, heq]

/-- C2: on an instance whose undo stack is nonempty, rollback followed
immediately by redo is a round trip: the rollback succeeds, the redo
succeeds, and after the redo the current state content equals the content
current immediately before the rollback; moreover every number of repeated
rollback/redo pairs succeeds and returns to that same state. -/
theorem c2_rollback_redo_roundtrip (h : Heap) (tx : TransitionX)
    (hinv : TxInv h tx) (hne : tx.stateHistory ≠ []) :
    (rollbackState h tx).err = none ∧
    (redoState (rollbackState h tx).heap (rollbackState h tx).tx).err = none ∧
    content (redoState (rollbackState h tx).heap (rollbackState h tx).tx).heap
      (redoState (rollbackState h tx).heap (rollbackState h tx).tx).tx = content h tx ∧
    ∀ n, ∃ h' tx', rollbackRedoIter n h tx = some (h', tx') ∧
      content h' tx' = content h tx := by
  obtain ⟨p, rest, hh⟩ := List.exists_cons_of_ne_nil hne
  obtain ⟨e1, e2, _, hcont, _, _, _⟩ := rollbackRedo_pair_spec h tx hinv p rest hh
  exact ⟨e1, e2, hcont, fun n => rollbackRedoIter_spec n h tx hinv hne⟩

/-- Witness for C2: state object `{x: "1"}` with one saved snapshot `{x: "0"}`
on the undo stack. -/
theorem c2_witness :
    (TxInv ⟨[[("x", "0")], [("x", "1")]]⟩ ⟨1, [], false, [0], []⟩ ∧
      TransitionX.stateHistory ⟨1, [], false, [0], []⟩ ≠ []) ∧
    ((rollbackState ⟨[[("x", "0")], [("x", "1")]]⟩ ⟨1, [], false, [0], []⟩).err = none ∧
     (redoState (rollbackState ⟨[[("x", "0")], [("x", "1")]]⟩ ⟨1, [], false, [0], []⟩).heap
        (rollbackState ⟨[[("x", "0")], [("x", "1")]]⟩ ⟨1, [], false, [0], []⟩).tx).err = none ∧
     content (redoState (rollbackState ⟨[[("x", "0")], [("x", "1")]]⟩ ⟨1, [], false, [0], []⟩).heap
        (rollbackState ⟨[[("x", "0")], [("x", "1")]]⟩ ⟨1, [], false, [0], []⟩).tx).heap
        (redoState (rollbackState ⟨[[("x", "0")], [("x", "1")]]⟩ ⟨1, [], false, [0], []⟩).heap
        (rollbackState ⟨[[("x", "0")], [("x", "1")]]⟩ ⟨1, [], false, [0], []⟩).tx).tx
        = content ⟨[[("x", "0")], [("x", "1")]]⟩ ⟨1, [], false, [0], []⟩ ∧
     ∀ n, ∃ h' tx',
        rollbackRedoIter n ⟨[[("x", "0")], [("x", "1")]]⟩ ⟨1, [], false, [0], []⟩
          = some (h', tx') ∧
        content h' tx' = content ⟨[[("x", "0")], [("x", "1")]]⟩ ⟨1, [], false, [0], []⟩) :=
  ⟨⟨by unfold TxInv; decide, by decide⟩,
   c2_rollback_redo_roundtrip ⟨[[("x", "0")], [("x", "1")]]⟩ ⟨1, [], false, [0], []⟩
     (by unfold TxInv; decide) (by decide)⟩

/-- C3: saveState clears the redo stack entirely, so a redoState immediately
after a save (with no intervening rollback) throws NoRedoError and changes
nothing, even when a redo would have succeeded just before the save (that is,
when the redo stack was nonempty). -/
theorem c3_save_clears_redo (h : Heap) (tx : TransitionX) :
    (saveState h tx).tx.redoStack = [] ∧
    redoState (saveState h tx).heap (saveState h tx).tx
      = ⟨(saveState h tx).heap, (saveState h tx).tx, some .NoRedoError⟩ ∧
    (tx.redoStack ≠ [] → (redoState h tx).err = none) := by
  refine ⟨saveState_redoStack h tx, redoState_nil _ _ (saveState_redoStack h tx), ?_⟩
  intro hne
  obtain ⟨p, rest, hh⟩ := List.exists_cons_of_ne_nil hne
  exact redoState_err h tx p rest hh

/-- Witness for C3: an instance whose redo stack holds one snapshot, so the
redo that would have succeeded fails after the save. -/
theorem c3_witness :
    TransitionX.redoStack ⟨1, [], false, [], [0]⟩ ≠ [] ∧
    ((saveState ⟨[[("x", "0")], [("x", "1")]]⟩ ⟨1, [], false, [], [0]⟩).tx.redoStack = [] ∧
     redoState (saveState ⟨[[("x", "0")], [("x", "1")]]⟩ ⟨1, [], false, [], [0]⟩).heap
        (saveState ⟨[[("x", "0")], [("x", "1")]]⟩ ⟨1, [], false, [], [0]⟩).tx
       = ⟨(saveState ⟨[[("x", "0")], [("x", "1")]]⟩ ⟨1, [], false, [], [0]⟩).heap,
          (saveState ⟨[[("x", "0")], [("x", "1")]]⟩ ⟨1, [], false, [], [0]⟩).tx,
          some .NoRedoError⟩ ∧
     (TransitionX.redoStack ⟨1, [], false, [], [0]⟩ ≠ [] →
       (redoState ⟨[[("x", "0")], [("x", "1")]]⟩ ⟨1, [], false, [], [0]⟩).err = none)) :=
  ⟨by decide, c3_save_clears_redo ⟨[[("x", "0")], [("x", "1")]]⟩ ⟨1, [], false, [], [0]⟩⟩

/-- C4 counterexample: on a fresh instance, rollback does throw the
no-history error, but the message text the source raises is
"No saved state to rollback to." (capitalized, with a trailing period), so it
is not the string "no saved state to rollback to" stated by the claim. -/
theorem c4_counterexample :
    (rollbackState ⟨[[("x", "0")]]⟩ ⟨0, [], false, [], []⟩).err
      = some .NoHistoryError ∧
    errMessage .NoHistoryError ≠ "no saved state to rollback to" ∧
    errMessage .NoHistoryError = "No saved state to rollback to." := by
  refine ⟨?_, by decide, by decide⟩
  rfl

/-- C4 (amended): rollback on an instance whose undo stack is empty throws
NoHistoryError — whose message reads "No saved state to rollback to." — and
performs no mutation at all: the heap (hence the current state content and
every snapshot) and the instance (state reference and both stacks) are
returned exactly as they were. -/
theorem c4_rollback_empty_no_mutation (h : Heap) (tx : TransitionX)
    (hh : tx.stateHistory = []) :
    rollbackState h tx = ⟨h, tx, some .NoHistoryError⟩ ∧
    errMessage .NoHistoryError = "No saved state to rollback to." :=
  ⟨rollbackState_nil h tx hh, rfl⟩

/-- Witness for C4 (amended) on a fresh instance with no prior save. -/
theorem c4_witness :
    TransitionX.stateHistory ⟨0, [], false, [], []⟩ = [] ∧
    (rollbackState ⟨[[("x", "0")]]⟩ ⟨0, [], false, [], []⟩
      = ⟨⟨[[("x", "0")]]⟩, ⟨0, [], false, [], []⟩, some .NoHistoryError⟩ ∧
     errMessage .NoHistoryError = "No saved state to rollback to.") :=
  ⟨rfl, c4_rollback_empty_no_mutation ⟨[[("x", "0")]]⟩ ⟨0, [], false, [], []⟩ rfl⟩

/-- C5 counterexample: the name "toString" is absent from the registry
supplied at construction (here the empty registry), yet the invoker does not
fail with UnknownTransitionError: the truthy check
`if (context.transitions[name])` finds the function the plain spread-created
object inherits from `Object.prototype` and calls it, so the invocation takes
the defined-branch (no manager error; also no state mutation). -/
theorem c5_counterexample :
    lookupTransition (TransitionX.transitions ⟨0, [], false, [], []⟩) "toString"
      = none ∧
    createTransition ⟨0, [], false, [], []⟩ "toString" ⟨[[("x", "0")]]⟩
      = (⟨[[("x", "0")]]⟩, .hostCall) ∧
    (createTransition ⟨0, [], false, [], []⟩ "toString" ⟨[[("x", "0")]]⟩).2
      ≠ .error (.UnknownTransitionError "toString") :=
  ⟨rfl, rfl, fun hcontra => InvokeResult.noConfusion hcontra⟩

/-- C5 (amended): invoking the transition-invoker with a name that is absent
from the registry AND is not a property inherited from `Object.prototype`
fails with UnknownTransitionError, whose message names the transition, and
performs no state mutation: the returned heap is the input heap unchanged
(so the current state content and every stored snapshot are untouched), and
the invoker never assigns any instance field (it returns no modified
instance at all, mirroring the source, which only reads `this`). For an
absent name that IS inherited from `Object.prototype` (such as "toString"),
the truthy check passes, no UnknownTransitionError is raised, and still no
registered transition runs and the managed state is not mutated. -/
theorem c5_unknown_transition (tx : TransitionX) (h : Heap) (name : String)
    (habs : lookupTransition tx.transitions name = none) :
    (name ∉ objectPrototypeProps →
      createTransition tx name h = (h, .error (.UnknownTransitionError name)) ∧
      errMessage (.UnknownTransitionError name)
        = "Transition \"" ++ name ++ "\" is not defined.") ∧
    (name ∈ objectPrototypeProps →
      createTransition tx name h = (h, .hostCall)) := by
  constructor
  · intro hnp
    constructor
    · simp [createTransition, registryLookup, habs, hnp]
    · rfl
  · intro hp
    simp [createTransition, registryLookup, habs, hp]

/-- Witness for C5 (amended): an empty registry with the ordinary
unregistered name "fly". -/
theorem c5_witness :
    lookupTransition (TransitionX.transitions ⟨0, [], false, [], []⟩) "fly" = none ∧
    (("fly" ∉ objectPrototypeProps →
      createTransition ⟨0, [], false, [], []⟩ "fly" ⟨[[("x", "0")]]⟩
        = (⟨[[("x", "0")]]⟩, .error (.UnknownTransitionError "fly")) ∧
      errMessage (.UnknownTransitionError "fly")
        = "Transition \"" ++ "fly" ++ "\" is not defined.") ∧
     ("fly" ∈ objectPrototypeProps →
      createTransition ⟨0, [], false, [], []⟩ "fly" ⟨[[("x", "0")]]⟩
        = (⟨[[("x", "0")]]⟩, .hostCall))) :=
  ⟨rfl, c5_unknown_transition ⟨0, [], false, [], []⟩ ⟨[[("x", "0")]]⟩ "fly" rfl⟩

/-- C6 counterexample: save does not change each stack size by exactly one.
Reachable scenario: fresh instance, save, save, rollback, rollback leaves two
snapshots on the redo stack; the next save empties it, a redo-stack size
change of two (and on a fresh instance the first save leaves the redo size
unchanged at zero, a change of zero) — so "each stack changes in size by
exactly plus or minus one" and "no operation changes a stack size by more
than one" both fail for save. -/
theorem c6_counterexample :
    (saveState ⟨[[("x", "0")]]⟩ ⟨0, [], false, [], []⟩).tx.redoStack.length = 0 ∧
    (rollbackState
        (rollbackState
          (saveState (saveState ⟨[[("x", "0")]]⟩ ⟨0, [], false, [], []⟩).heap
            (saveState ⟨[[("x", "0")]]⟩ ⟨0, [], false, [], []⟩).tx).heap
          (saveState (saveState ⟨[[("x", "0")]]⟩ ⟨0, [], false, [], []⟩).heap
            (saveState ⟨[[("x", "0")]]⟩ ⟨0, [], false, [], []⟩).tx).tx).heap
        (rollbackState
          (saveState (saveState ⟨[[("x", "0")]]⟩ ⟨0, [], false, [], []⟩).heap
            (saveState ⟨[[("x", "0")]]⟩ ⟨0, [], false, [], []⟩).tx).heap
          (saveState (saveState ⟨[[("x", "0")]]⟩ ⟨0, [], false, [], []⟩).heap
            (saveState ⟨[[("x", "0")]]⟩ ⟨0, [], false, [], []⟩).tx).tx).tx).tx.redoStack.length
      = 2 ∧
    (saveState
        (rollbackState
          (rollbackState
            (saveState (saveState ⟨[[("x", "0")]]⟩ ⟨0, [], false, [], []⟩).heap
              (saveState ⟨[[("x", "0")]]⟩ ⟨0, [], false, [], []⟩).tx).heap
            (saveState (saveState ⟨[[("x", "0")]]⟩ ⟨0, [], false, [], []⟩).heap
              (saveState ⟨[[("x", "0")]]⟩ ⟨0, [], false, [], []⟩).tx).tx).heap
          (rollbackState
            (saveState (saveState ⟨[[("x", "0")]]⟩ ⟨0, [], false, [], []⟩).heap
              (saveState ⟨[[("x", "0")]]⟩ ⟨0, [], false, [], []⟩).tx).heap
            (saveState (saveState ⟨[[("x", "0")]]⟩ ⟨0, [], false, [], []⟩).heap
              (saveState ⟨[[("x", "0")]]⟩ ⟨0, [], false, [], []⟩).tx).tx).tx).heap
        (rollbackState
          (rollbackState
            (saveState (saveState ⟨[[("x", "0")]]⟩ ⟨0, [], false, [], []⟩).heap
              (saveState ⟨[[("x", "0")]]⟩ ⟨0, [], false, [], []⟩).tx).heap
            (saveState (saveState ⟨[[("x", "0")]]⟩ ⟨0, [], false, [], []⟩).heap
              (saveState ⟨[[("x", "0")]]⟩ ⟨0, [], false, [], []⟩).tx).tx).heap
          (rollbackState
            (saveState (saveState ⟨[[("x", "0")]]⟩ ⟨0, [], false, [], []⟩).heap
              (saveState ⟨[[("x", "0")]]⟩ ⟨0, [], false, [], []⟩).tx).heap
            (saveState (saveState ⟨[[("x", "0")]]⟩ ⟨0, [], false, [], []⟩).heap
              (saveState ⟨[[("x", "0")]]⟩ ⟨0, [], false, [], []⟩).tx).tx).tx).tx).tx.redoStack.length
      = 0 := by
  refine ⟨rfl, ?_, ?_⟩ <;> rfl

/-- C6 (amended): successful rollback and redo each move exactly one snapshot
between the stacks — rollback pops the undo top, pushes one snapshot holding
the pre-rollback content onto the redo stack, and restores the popped
content; redo is symmetric — so those two operations change each stack size
by exactly one; save, however, pushes exactly one undo snapshot but resets
the redo stack to empty, so the redo-stack size change under save equals its
previous length (zero or more), not plus or minus one in general. -/
theorem c6_stack_moves (h : Heap) (tx : TransitionX) (hinv : TxInv h tx) :
    (∀ p rest, tx.stateHistory = p :: rest →
      (rollbackState h tx).tx.stateHistory = rest ∧
      (rollbackState h tx).tx.redoStack = h.size :: tx.redoStack ∧
      (rollbackState h tx).heap.get h.size = content h tx ∧
      content (rollbackState h tx).heap (rollbackState h tx).tx = h.get p) ∧
    (∀ p rest, tx.redoStack = p :: rest →
      (redoState h tx).tx.redoStack = rest ∧
      (redoState h tx).tx.stateHistory = h.size :: tx.stateHistory ∧
      (redoState h tx).heap.get h.size = content h tx ∧
      content (redoState h tx).heap (redoState h tx).tx = h.get p) ∧
    ((saveState h tx).tx.stateHistory.length = tx.stateHistory.length + 1 ∧
     (saveState h tx).tx.redoStack = []) := by
  refine ⟨?_, ?_, ?_, saveState_redoStack h tx⟩
  · intro p rest hh
    have hp : p < h.size := by
      have := hinv.2.1 p (by rw [hh]; exact List.mem_cons_self p rest)
      exact this.1
    exact ⟨rollbackState_stateHistory h tx p rest hh,
      rollbackState_redoStack h tx p rest hh,
      rollbackState_get_redo_snap h tx p rest hh,
      rollbackState_content h tx p rest hh hp⟩
  · intro p rest hh
    have hp : p < h.size := by
      have := hinv.2.2 p (by rw [hh]; exact List.mem_cons_self p rest)
      exact this.1
    exact ⟨redoState_redoStack h tx p rest hh,
      redoState_stateHistory h tx p rest hh,
      redoState_get_undo_snap h tx p rest hh,
      redoState_content h tx p rest hh hp⟩
  · rw [saveState_stateHistory]
    rfl

/-- Witness for C6 (amended): an instance with one snapshot on each stack. -/
theorem c6_witness :
    TxInv ⟨[[("x", "0")], [("x", "1")], [("x", "2")]]⟩ ⟨2, [], false, [0], [1]⟩ ∧
    ((∀ p rest, TransitionX.stateHistory ⟨2, [], false, [0], [1]⟩ = p :: rest →
      (rollbackState ⟨[[("x", "0")], [("x", "1")], [("x", "2")]]⟩
          ⟨2, [], false, [0], [1]⟩).tx.stateHistory = rest ∧
      (rollbackState ⟨[[("x", "0")], [("x", "1")], [("x", "2")]]⟩
          ⟨2, [], false, [0], [1]⟩).tx.redoStack
        = Heap.size ⟨[[("x", "0")], [("x", "1")], [("x", "2")]]⟩
            :: TransitionX.redoStack ⟨2, [], false, [0], [1]⟩ ∧
      (rollbackState ⟨[[("x", "0")], [("x", "1")], [("x", "2")]]⟩
          ⟨2, [], false, [0], [1]⟩).heap.get
            (Heap.size ⟨[[("x", "0")], [("x", "1")], [("x", "2")]]⟩)
        = content ⟨[[("x", "0")], [("x", "1")], [("x", "2")]]⟩ ⟨2, [], false, [0], [1]⟩ ∧
      content (rollbackState ⟨[[("x", "0")], [("x", "1")], [("x", "2")]]⟩
          ⟨2, [], false, [0], [1]⟩).heap
        (rollbackState ⟨[[("x", "0")], [("x", "1")], [("x", "2")]]⟩
          ⟨2, [], false, [0], [1]⟩).tx
        = Heap.get ⟨[[("x", "0")], [("x", "1")], [("x", "2")]]⟩ p) ∧
    (∀ p rest, TransitionX.redoStack ⟨2, [], false, [0], [1]⟩ = p :: rest →
      (redoState ⟨[[("x", "0")], [("x", "1")], [("x", "2")]]⟩
          ⟨2, [], false, [0], [1]⟩).tx.redoStack = rest ∧
      (redoState ⟨[[("x", "0")], [("x", "1")], [("x", "2")]]⟩
          ⟨2, [], false, [0], [1]⟩).tx.stateHistory
        = Heap.size ⟨[[("x", "0")], [("x", "1")], [("x", "2")]]⟩
            :: TransitionX.stateHistory ⟨2, [], false, [0], [1]⟩ ∧
      (redoState ⟨[[("x", "0")], [("x", "1")], [("x", "2")]]⟩
          ⟨2, [], false, [0], [1]⟩).heap.get
            (Heap.size ⟨[[("x", "0")], [("x", "1")], [("x", "2")]]⟩)
        = content ⟨[[("x", "0")], [("x", "1")], [("x", "2")]]⟩ ⟨2, [], false, [0], [1]⟩ ∧
      content (redoState ⟨[[("x", "0")], [("x", "1")], [("x", "2")]]⟩
          ⟨2, [], false, [0], [1]⟩).heap
        (redoState ⟨[[("x", "0")], [("x", "1")], [("x", "2")]]⟩
          ⟨2, [], false, [0], [1]⟩).tx
        = Heap.get ⟨[[("x", "0")], [("x", "1")], [("x", "2")]]⟩ p) ∧
    ((saveState ⟨[[("x", "0")], [("x", "1")], [("x", "2")]]⟩
        ⟨2, [], false, [0], [1]⟩).tx.stateHistory.length
      = (TransitionX.stateHistory ⟨2, [], false, [0], [1]⟩).length + 1 ∧
     (saveState ⟨[[("x", "0")], [("x", "1")], [("x", "2")]]⟩
        ⟨2, [], false, [0], [1]⟩).tx.redoStack = [])) :=
  ⟨by unfold TxInv; decide,
   c6_stack_moves ⟨[[("x", "0")], [("x", "1")], [("x", "2")]]⟩ ⟨2, [], false, [0], [1]⟩
     (by unfold TxInv; decide)⟩

/-- C7 counterexample: the bundle built by wrap captures the state reference
once. Scenario (all steps through the bundle): fresh instance with state
`{x: "0"}`; save; write x := "1" through the bundle state; rollback. The
rollback succeeds and reassigns the manager state to a fresh object, so the
bundle state is now a different reference, and a subsequent write x := "2"
through the bundle state is not visible in the manager's current state
(which stays `{x: "0"}` while the stale bundle object reads `{x: "2"}`) —
refuting the claim that manager-state changes and bundle-state mutations
stay mutually visible for the whole duration of the call. -/
theorem c7_counterexample :
    (rollbackState
        ((saveState ⟨[[("x", "0")]]⟩ ⟨0, [], false, [], []⟩).heap.writeKey
          (wrapBundle ⟨0, [], false, [], []⟩).state "x" "1")
        (saveState ⟨[[("x", "0")]]⟩ ⟨0, [], false, [], []⟩).tx).err = none ∧
    (rollbackState
        ((saveState ⟨[[("x", "0")]]⟩ ⟨0, [], false, [], []⟩).heap.writeKey
          (wrapBundle ⟨0, [], false, [], []⟩).state "x" "1")
        (saveState ⟨[[("x", "0")]]⟩ ⟨0, [], false, [], []⟩).tx).tx.state
      ≠ (wrapBundle ⟨0, [], false, [], []⟩).state ∧
    content
      ((rollbackState
          ((saveState ⟨[[("x", "0")]]⟩ ⟨0, [], false, [], []⟩).heap.writeKey
            (wrapBundle ⟨0, [], false, [], []⟩).state "x" "1")
          (saveState ⟨[[("x", "0")]]⟩ ⟨0, [], false, [], []⟩).tx).heap.writeKey
        (wrapBundle ⟨0, [], false, [], []⟩).state "x" "2")
      (rollbackState
          ((saveState ⟨[[("x", "0")]]⟩ ⟨0, [], false, [], []⟩).heap.writeKey
            (wrapBundle ⟨0, [], false, [], []⟩).state "x" "1")
          (saveState ⟨[[("x", "0")]]⟩ ⟨0, [], false, [], []⟩).tx).tx
      = [("x", "0")] ∧
    ((rollbackState
          ((saveState ⟨[[("x", "0")]]⟩ ⟨0, [], false, [], []⟩).heap.writeKey
            (wrapBundle ⟨0, [], false, [], []⟩).state "x" "1")
          (saveState ⟨[[("x", "0")]]⟩ ⟨0, [], false, [], []⟩).tx).heap.writeKey
        (wrapBundle ⟨0, [], false, [], []⟩).state "x" "2").get
        (wrapBundle ⟨0, [], false, [], []⟩).state
      = [("x", "2")] := by
  exact ⟨rfl, by decide, rfl, rfl⟩

/-- C7 (amended): the bundle state field aliases the manager state as of the
moment the wrapped procedure is called: while the manager's state reference
is unchanged (saves and transitions never reassign it), writes through the
bundle state are writes to the manager's current state; but a successful
rollback or redo reassigns the manager state to a freshly allocated object,
after which the bundle's captured reference is stale: writes through it no
longer change the manager's current state. -/
theorem c7_bundle_state_alias (h : Heap) (tx : TransitionX) (hinv : TxInv h tx) :
    (wrapBundle tx).state = tx.state ∧
    (∀ k v, content (h.writeKey (wrapBundle tx).state k v) tx
        = (content h tx).setKey k v) ∧
    (saveState h tx).tx.state = (wrapBundle tx).state ∧
    ((rollbackState h tx).err = none →
      (rollbackState h tx).tx.state ≠ (wrapBundle tx).state ∧
      ∀ k v, content ((rollbackState h tx).heap.writeKey (wrapBundle tx).state k v)
          (rollbackState h tx).tx
        = content (rollbackState h tx).heap (rollbackState h tx).tx) ∧
    ((redoState h tx).err = none →
      (redoState h tx).tx.state ≠ (wrapBundle tx).state ∧
      ∀ k v, content ((redoState h tx).heap.writeKey (wrapBundle tx).state k v)
          (redoState h tx).tx
        = content (redoState h tx).heap (redoState h tx).tx) := by
  refine ⟨rfl, ?_, rfl, ?_, ?_⟩
  · intro k v
    rw [content, content]
    exact Heap.get_writeKey_self h tx.state k v hinv.1
  · intro herr
    match hh : tx.stateHistory with
    | [] =>
        rw [rollbackState_nil h tx hh] at herr
        simp at herr
    | p :: rest =>
        have hstate : (rollbackState h tx).tx.state = h.size + 1 :=
          rollbackState_state h tx p rest hh
        have hne : (rollbackState h tx).tx.state ≠ (wrapBundle tx).state := by
          rw [hstate]
          exact Nat.ne_of_gt (Nat.lt_succ_of_lt hinv.1)
        refine ⟨hne, ?_⟩
        intro k v
        rw [content, content]
        exact Heap.get_writeKey_ne _ _ _ k v hne
  · intro herr
    match hh : tx.redoStack with
    | [] =>
        rw [redoState_nil h tx hh] at herr
        simp at herr
    | p :: rest =>
        have hstate : (redoState h tx).tx.state = h.size + 1 :=
          redoState_state h tx p rest hh
        have hne : (redoState h tx).tx.state ≠ (wrapBundle tx).state := by
          rw [hstate]
          exact Nat.ne_of_gt (Nat.lt_succ_of_lt hinv.1)
        refine ⟨hne, ?_⟩
        intro k v
        rw [content, content]
        exact Heap.get_writeKey_ne _ _ _ k v hne

/-- Witness for C7 (amended): instance with one snapshot on each stack. -/
theorem c7_witness :
    TxInv ⟨[[("x", "0")], [("x", "1")]]⟩ ⟨1, [], false, [0], [0]⟩ ∧
    ((wrapBundle ⟨1, [], false, [0], [0]⟩).state
        = TransitionX.state ⟨1, [], false, [0], [0]⟩ ∧
     (∀ k v, content (Heap.writeKey ⟨[[("x", "0")], [("x", "1")]]⟩
          (wrapBundle ⟨1, [], false, [0], [0]⟩).state k v) ⟨1, [], false, [0], [0]⟩
        = (content ⟨[[("x", "0")], [("x", "1")]]⟩ ⟨1, [], false, [0], [0]⟩).setKey k v) ∧
     (saveState ⟨[[("x", "0")], [("x", "1")]]⟩ ⟨1, [], false, [0], [0]⟩).tx.state
        = (wrapBundle ⟨1, [], false, [0], [0]⟩).state ∧
     ((rollbackState ⟨[[("x", "0")], [("x", "1")]]⟩ ⟨1, [], false, [0], [0]⟩).err = none →
       (rollbackState ⟨[[("x", "0")], [("x", "1")]]⟩ ⟨1, [], false, [0], [0]⟩).tx.state
          ≠ (wrapBundle ⟨1, [], false, [0], [0]⟩).state ∧
       ∀ k v, content ((rollbackState ⟨[[("x", "0")], [("x", "1")]]⟩
              ⟨1, [], false, [0], [0]⟩).heap.writeKey
            (wrapBundle ⟨1, [], false, [0], [0]⟩).state k v)
            (rollbackState ⟨[[("x", "0")], [("x", "1")]]⟩ ⟨1, [], false, [0], [0]⟩).tx
          = content (rollbackState ⟨[[("x", "0")], [("x", "1")]]⟩
              ⟨1, [], false, [0], [0]⟩).heap
            (rollbackState ⟨[[("x", "0")], [("x", "1")]]⟩ ⟨1, [], false, [0], [0]⟩).tx) ∧
     ((redoState ⟨[[("x", "0")], [("x", "1")]]⟩ ⟨1, [], false, [0], [0]⟩).err = none →
       (redoState ⟨[[("x", "0")], [("x", "1")]]⟩ ⟨1, [], false, [0], [0]⟩).tx.state
          ≠ (wrapBundle ⟨1, [], false, [0], [0]⟩).state ∧
       ∀ k v, content ((redoState ⟨[[("x", "0")], [("x", "1")]]⟩
              ⟨1, [], false, [0], [0]⟩).heap.writeKey
            (wrapBundle ⟨1, [], false, [0], [0]⟩).state k v)
            (redoState ⟨[[("x", "0")], [("x", "1")]]⟩ ⟨1, [], false, [0], [0]⟩).tx
          = content (redoState ⟨[[("x", "0")], [("x", "1")]]⟩
              ⟨1, [], false, [0], [0]⟩).heap
            (redoState ⟨[[("x", "0")], [("x", "1")]]⟩ ⟨1, [], false, [0], [0]⟩).tx)) :=
  ⟨by unfold TxInv; decide,
   c7_bundle_state_alias ⟨[[("x", "0")], [("x", "1")]]⟩ ⟨1, [], false, [0], [0]⟩
     (by unfold TxInv; decide)⟩

/-- C8: a registered transition is invoked with the manager's live state
reference, not a copy — the heap at the end of the invocation is exactly the
transition function applied at `tx.state`, so its in-place mutations are the
manager's post-transition state — and stored snapshots never alias the live
state, so an in-place top-level mutation of the current state leaves the
content of every snapshot on either stack unchanged. -/
theorem c8_live_state_and_snapshot_isolation (h : Heap) (tx : TransitionX)
    (hinv : TxInv h tx) (name : String) (f : TransitionFn)
    (hf : lookupTransition tx.transitions name = some f) :
    (createTransition tx name h).1 = (f tx.state h).1 ∧
    (∀ k v, ∀ id ∈ tx.stateHistory ++ tx.redoStack,
      (h.writeKey tx.state k v).get id = h.get id) := by
  constructor
  · simp [createTransition, registryLookup, hf]
  · intro k v id hid
    have hbound : id < h.size ∧ id ≠ tx.state := by
      rcases List.mem_append.mp hid with hm | hm
      · exact hinv.2.1 id hm
      · exact hinv.2.2 id hm
    exact Heap.get_writeKey_ne h tx.state id k v hbound.2

/-- Witness for C8: the `eat` transition on an instance with a saved
snapshot; the invocation heap is `eat` applied at the live reference, and a
state mutation leaves the snapshot content intact. -/
theorem c8_witness :
    (TxInv ⟨[[("hunger", "hungry")], [("hunger", "hungry")]]⟩
        ⟨1, [("eat", eatTransition)], false, [0], []⟩ ∧
     lookupTransition
        (TransitionX.transitions ⟨1, [("eat", eatTransition)], false, [0], []⟩) "eat"
      = some eatTransition) ∧
    ((createTransition ⟨1, [("eat", eatTransition)], false, [0], []⟩ "eat"
        ⟨[[("hunger", "hungry")], [("hunger", "hungry")]]⟩).1
      = (eatTransition (TransitionX.state ⟨1, [("eat", eatTransition)], false, [0], []⟩)
          ⟨[[("hunger", "hungry")], [("hunger", "hungry")]]⟩).1 ∧
     (∀ k v, ∀ id ∈ TransitionX.stateHistory ⟨1, [("eat", eatTransition)], false, [0], []⟩
          ++ TransitionX.redoStack ⟨1, [("eat", eatTransition)], false, [0], []⟩,
       (Heap.writeKey ⟨[[("hunger", "hungry")], [("hunger", "hungry")]]⟩
          (TransitionX.state ⟨1, [("eat", eatTransition)], false, [0], []⟩) k v).get id
        = Heap.get ⟨[[("hunger", "hungry")], [("hunger", "hungry")]]⟩ id)) :=
  ⟨⟨by unfold TxInv; decide, rfl⟩,
   c8_live_state_and_snapshot_isolation
     ⟨[[("hunger", "hungry")], [("hunger", "hungry")]]⟩
     ⟨1, [("eat", eatTransition)], false, [0], []⟩
     (by unfold TxInv; decide) "eat" eatTransition rfl⟩

/-- C9: the constructor stores shallow copies of the initial state and of
the transition registry. The manager's state is a freshly allocated object
distinct from the caller's object, holding a copy of its top-level entries,
so a later external top-level write to the original object leaves the
manager's current state content unchanged; and the registry's top-level
entries are captured by value at construction, so however the original
registry object in the store is later overwritten, the manager's registry is
the entry list the store held at construction time. -/
theorem c9_constructor_defensive_copies (h : Heap) (rs : RegStore) (i : ObjId)
    (t : RegId) (d : Bool) (hi : i < h.size) :
    (TransitionX.construct h rs i t d).2.state ≠ i ∧
    content (TransitionX.construct h rs i t d).1 (TransitionX.construct h rs i t d).2
      = h.get i ∧
    (∀ k v, content
        ((TransitionX.construct h rs i t d).1.writeKey i k v)
        (TransitionX.construct h rs i t d).2
      = h.get i) ∧
    (∀ reg', (TransitionX.construct h rs i t d).2.transitions = rs.get t ∧
      (RegStore.set rs t reg').get t ≠ rs.get t →
        (TransitionX.construct h rs i t d).2.transitions = rs.get t) := by
  have hstate : (TransitionX.construct h rs i t d).2.state = h.size := rfl
  have hne : (TransitionX.construct h rs i t d).2.state ≠ i := by
    rw [hstate]
    exact Nat.ne_of_gt hi
  have hcont : content (TransitionX.construct h rs i t d).1
      (TransitionX.construct h rs i t d).2 = h.get i := Heap.get_alloc_new h _
  refine ⟨hne, hcont, ?_, fun reg' _ => rfl⟩
  intro k v
  rw [content, Heap.get_writeKey_ne _ i _ k v hne]
  exact hcont

/-- Witness for C9: one-object heap and one-registry store. -/
theorem c9_witness :
    (0 : ObjId) < Heap.size ⟨[[("x", "0")]]⟩ ∧
    ((TransitionX.construct ⟨[[("x", "0")]]⟩ ⟨[[("eat", eatTransition)]]⟩
        0 0 false).2.state ≠ 0 ∧
     content (TransitionX.construct ⟨[[("x", "0")]]⟩ ⟨[[("eat", eatTransition)]]⟩
        0 0 false).1
        (TransitionX.construct ⟨[[("x", "0")]]⟩ ⟨[[("eat", eatTransition)]]⟩
        0 0 false).2
      = Heap.get ⟨[[("x", "0")]]⟩ 0 ∧
     (∀ k v, content
        ((TransitionX.construct ⟨[[("x", "0")]]⟩ ⟨[[("eat", eatTransition)]]⟩
          0 0 false).1.writeKey 0 k v)
        (TransitionX.construct ⟨[[("x", "0")]]⟩ ⟨[[("eat", eatTransition)]]⟩
          0 0 false).2
      = Heap.get ⟨[[("x", "0")]]⟩ 0) ∧
     (∀ reg', (TransitionX.construct ⟨[[("x", "0")]]⟩ ⟨[[("eat", eatTransition)]]⟩
          0 0 false).2.transitions
          = RegStore.get ⟨[[("eat", eatTransition)]]⟩ 0 ∧
       (RegStore.set ⟨[[("eat", eatTransition)]]⟩ 0 reg').get 0
          ≠ RegStore.get ⟨[[("eat", eatTransition)]]⟩ 0 →
         (TransitionX.construct ⟨[[("x", "0")]]⟩ ⟨[[("eat", eatTransition)]]⟩
          0 0 false).2.transitions
          = RegStore.get ⟨[[("eat", eatTransition)]]⟩ 0)) :=
  ⟨by decide,
   c9_constructor_defensive_copies ⟨[[("x", "0")]]⟩ ⟨[[("eat", eatTransition)]]⟩
     0 0 false (by decide)⟩

/-- C10: a JS async function body runs synchronously until its first await,
and the awaited operand — the transition call itself — is evaluated before
the suspension; so when the looked-up transition completes synchronously
(returns no pending computation), the state mutation is already applied in
the heap at the moment the invoker call returns, without awaiting the
returned promise. -/
theorem c10_sync_transition_applies_before_return (tx : TransitionX) (h : Heap)
    (name : String) (f : TransitionFn)
    (hf : lookupTransition tx.transitions name = some f)
    (h' : Heap) (hsync : f tx.state h = (h', .sync)) :
    (createTransition tx name h).1 = h' ∧
    (createTransition tx name h).2 = .ok .sync := by
  refine ⟨?_, ?_⟩ <;> simp [createTransition, registryLookup, hf, hsync]

/-- Witness for C10: invoking the synchronous `eat` transition on the test's
initial state `{hunger: "hungry", energy: "low"}`; the returned heap already
shows `hunger = "satisfied"`. -/
theorem c10_witness :
    (lookupTransition
        (TransitionX.transitions ⟨0, [("eat", eatTransition)], false, [], []⟩) "eat"
        = some eatTransition ∧
     eatTransition (TransitionX.state ⟨0, [("eat", eatTransition)], false, [], []⟩)
        ⟨[[("hunger", "hungry"), ("energy", "low")]]⟩
        = (⟨[[("hunger", "satisfied"), ("energy", "low")]]⟩, .sync)) ∧
    ((createTransition ⟨0, [("eat", eatTransition)], false, [], []⟩ "eat"
        ⟨[[("hunger", "hungry"), ("energy", "low")]]⟩).1
      = ⟨[[("hunger", "satisfied"), ("energy", "low")]]⟩ ∧
     (createTransition ⟨0, [("eat", eatTransition)], false, [], []⟩ "eat"
        ⟨[[("hunger", "hungry"), ("energy", "low")]]⟩).2 = .ok .sync) :=
  ⟨⟨rfl, rfl⟩,
   c10_sync_transition_applies_before_return
     ⟨0, [("eat", eatTransition)], false, [], []⟩
     ⟨[[("hunger", "hungry"), ("energy", "low")]]⟩ "eat" eatTransition rfl
     ⟨[[("hunger", "satisfied"), ("energy", "low")]]⟩ rfl⟩
